import Mathlib

/-!
Shallow embedding of the TAPO-P110 backend (device polling, Modbus decode,
schema-driven persistence) and proofs checking the specification's claims
against it.  Sources embedded:
  * `src/services/data_service.py` (`DataService`)
  * `src/core/config_manager.py` (`DeviceTableManager`)
  * `src/core/auth_handler.py` (`AuthHandler`)
  * `main.py` (polling loop)
Python `None`/SQL `NULL` is `Value.null`; Python dicts are association
lists with in-place overwrite; Python numbers are `Int`/`ℚ` (Python float
division is modelled exactly over `ℚ`).
-/

/-- Runtime values flowing through the service: Python `None` / SQL `NULL`,
integers, (exactly represented) floats as rationals, strings, and the
non-finite IEEE-754 results (infinities / NaN) of `struct.unpack`. -/
inductive Value where
  | null
  | int (n : Int)
  | real (q : ℚ)
  | str (s : String)
  | nonfinite (negative isNan : Bool)
deriving DecidableEq, Repr

/-- A Python dict with string keys, as an association list (first match wins,
assignment overwrites in place, new keys are appended — insertion order). -/
abbrev Dict := List (String × Value)

/-- Dict lookup, `d[k]` / `k in d`: `none` when the key is absent. -/
def dictGet (d : Dict) (k : String) : Option Value :=
  match d with
  | [] => none
  | (k', v) :: rest => if k' = k then some v else dictGet rest k

/-- Python `d.get(k, None)`: `Value.null` when the key is absent. -/
def dictGetD (d : Dict) (k : String) : Value :=
  (dictGet d k).getD Value.null

/-- Dict assignment `d[k] = v`: overwrite in place, else append. -/
def dictSet (d : Dict) (k : String) (v : Value) : Dict :=
  match d with
  | [] => [(k, v)]
  | (k', v') :: rest => if k' = k then (k, v) :: rest else (k', v') :: dictSet rest k v

/-! ## Modbus adapter (`DataService.get_modbus_device_data`) -/

/-- One schema entry carrying Modbus metadata, with the `.get` defaults used
by the source (`length` 1, `scale` 1, `format` the string `>I`). -/
structure ModbusField where
  name : String
  address : Int := 0
  length : Nat := 1
  scale : ℚ := 1
  fmt : String := ">I"
deriving DecidableEq, Repr

/-- Python `v & 0xFFFF` on a (possibly negative, sign-extended) int:
two's-complement masking is the mathematical residue mod 2^16. -/
def mask16 (v : Int) : Nat :=
  (v % 65536).toNat

/-- Exact value of an IEEE-754 single-precision bit pattern (`struct.unpack
of a big-endian 4-byte word), as a rational; `none` for exponent 255
(infinities and NaNs, which have no rational value). -/
def float32ToRat (w : Nat) : Option ℚ :=
  let s : Nat := w / 2 ^ 31 % 2
  let e : Nat := w / 2 ^ 23 % 2 ^ 8
  let m : Nat := w % 2 ^ 23
  if e = 255 then none
  else
    let mag : ℚ := if e = 0 then (m : ℚ) / 2 ^ 149 else ((2 ^ 23 + m : ℚ) * 2 ^ e) / 2 ^ 150
    some (if s = 1 then -mag else mag)

/-- Decode of one field from its register list, mirroring the branch in
`get_modbus_device_data`: `length == 2 and fmt == '>f'` masks each register
to 16 bits, packs big-endian (`struct.pack of two unsigned 16-bit halves`),
reinterprets as an IEEE-754 float and divides by `scale` when `scale > 1`;
every other combination takes `response[0]` divided by `scale` when
`scale > 1`.  Accessing a missing register raises IndexError. -/
def decodeField (f : ModbusField) (response : List Int) : Except String Value :=
  if f.length = 2 ∧ f.fmt = ">f" then
    match response with
    | r0 :: r1 :: _ =>
      let w := mask16 r0 * 2 ^ 16 + mask16 r1
      match float32ToRat w with
      | some q => .ok (.real (if f.scale > 1 then q / f.scale else q))
      | none => .ok (.nonfinite (w / 2 ^ 31 % 2 = 1) (w % 2 ^ 23 ≠ 0))
    | _ => .error "list index out of range"
  else
    match response with
    | r0 :: _ => .ok (if f.scale > 1 then .real ((r0 : ℚ) / f.scale) else .int r0)
    | [] => .error "list index out of range"

/-- Outcome of reading and decoding one field: the transport read (the
`read_holding_registers` request/response, which may raise) chained with
the decode, as in the per-field `try` block. -/
def readOutcome (oracle : ModbusField → Except String (List Int)) (f : ModbusField) :
    Except String Value :=
  (oracle f).bind (decodeField f)

/-- The per-field loop of `get_modbus_device_data`: skip `device_name`,
stamp `timestamp` with the current time, otherwise read-and-decode; a
per-field failure is recorded under the key `<name>_error` and the loop
continues with the next field. -/
def modbusCollect (oracle : ModbusField → Except String (List Int)) (now : String) :
    List ModbusField → Dict → Dict
  | [], data => data
  | f :: rest, data =>
    if f.name = "device_name" then
      modbusCollect oracle now rest data
    else if f.name = "timestamp" then
      modbusCollect oracle now rest (dictSet data "timestamp" (.str now))
    else
      match readOutcome oracle f with
      | .ok v => modbusCollect oracle now rest (dictSet data f.name v)
      | .error e => modbusCollect oracle now rest (dictSet data (f.name ++ "_error") (.str e))

/-- `DataService.get_modbus_device_data`: start from `{device_name: name}`;
without an IP return that dict as is; on socket connect failure record a
top-level `error`; otherwise run the field loop and ensure `timestamp`
is present afterwards. -/
def get_modbus_device_data (deviceName : String) (hasIp : Bool)
    (fields : List ModbusField) (connect : Except String Unit)
    (oracle : ModbusField → Except String (List Int)) (now : String) : Dict :=
  let data : Dict := dictSet [] "device_name" (.str deviceName)
  if !hasIp then data
  else
    match connect with
    | .error e => dictSet data "error" (.str e)
    | .ok _ =>
      let d := modbusCollect oracle now fields data
      if (dictGet d "timestamp").isSome then d else dictSet d "timestamp" (.str now)

/-! ## Schema-evolving store (`DeviceTableManager` and the save paths) -/

/-- One column of a declarative schema entry: `{name, type}`. -/
structure ColumnDef where
  name : String
  sqlType : String
deriving DecidableEq, Repr

/-- A physical table: its column names and its rows, a row being the
association of the insert's column list with the inserted values
(columns of the table absent from a row read back as `NULL`). -/
structure Table where
  cols : List String
  rows : List Dict
deriving DecidableEq, Repr

/-- One SQL `INSERT` naming `cols`: succeeds exactly when every named
column exists in the table, appending the row; otherwise the statement
raises (unknown column). -/
def insertRow (t : Table) (cols : List String) (vals : List Value) : Except String Table :=
  if cols.all (fun c => c ∈ t.cols) then
    .ok { t with rows := t.rows ++ [cols.zip vals] }
  else .error "no such column"

/-- `DataService.save_schneider_device_reading`: filter `device_name` out of
the schema's field names, append `timestamp` when missing, default the
data's `timestamp` and `device_name`, then insert
`(device_name, fields...)`; on failure run `CREATE TABLE IF NOT EXISTS`
(a no-op when the table exists) and retry the insert once. -/
def save_schneider_device_reading (schemaCols : List ColumnDef) (deviceName : String)
    (data : Dict) (now : String) (tbl : Option Table) : Except String Table :=
  let schemaFields0 := (schemaCols.map ColumnDef.name).filter (fun n => n ≠ "device_name")
  let schemaFields := if "timestamp" ∈ schemaFields0 then schemaFields0
                      else schemaFields0 ++ ["timestamp"]
  let data1 := if dictGetD data "timestamp" = Value.null then
                 dictSet data "timestamp" (.str now) else data
  let data2 := if (dictGet data1 "device_name").isSome then data1
               else dictSet data1 "device_name" (.str deviceName)
  let values := dictGetD data2 "device_name" :: schemaFields.map (dictGetD data2)
  let insertCols := "device_name" :: schemaFields
  match tbl with
  | some t =>
    match insertRow t insertCols values with
    | .ok t2 => .ok t2
    | .error _ => insertRow t insertCols values
  | none =>
    let created : Table :=
      { cols := "id" :: "device_name" :: (schemaFields.zip schemaCols).map Prod.fst
        rows := [] }
    insertRow created insertCols values

/-! ## Cloud (Tapo) adapter (`DataService.get_tapo_device_data`) -/

/-- Value of one non-`device_name` schema field in `get_tapo_device_data`:
`getattr of device_info` first (Python returns `None` both for a missing
attribute and for an attribute holding `None`, so the sub-responses are
total maps into `Value` with `null` meaning absent), else
`getattr of energy_usage`, and `timestamp` is overridden with the
current time. -/
def tapoValue (deviceInfo energyUsage : String → Value) (now : String)
    (fname : String) : Value :=
  let v0 := if deviceInfo fname ≠ Value.null then deviceInfo fname else energyUsage fname
  if fname = "timestamp" then Value.str now else v0

/-- The schema-field loop of `get_tapo_device_data`: `device_name` entries
are skipped (already set), every other field is assigned its looked-up
value (possibly `null`). -/
def tapoFields (deviceInfo energyUsage : String → Value) (now : String) :
    List String → Dict → Dict
  | [], data => data
  | fname :: rest, data =>
    if fname = "device_name" then
      tapoFields deviceInfo energyUsage now rest data
    else
      tapoFields deviceInfo energyUsage now rest
        (dictSet data fname (tapoValue deviceInfo energyUsage now fname))

/-- `DataService.get_tapo_device_data`: seed `device_name` when a name was
passed, then project the SmartPlug schema's field names through the two
sub-responses. -/
def get_tapo_device_data (deviceName : Option String)
    (deviceInfo energyUsage : String → Value) (now : String)
    (schemaFields : List String) : Dict :=
  let data : Dict := match deviceName with
    | some n => dictSet [] "device_name" (Value.str n)
    | none => []
  tapoFields deviceInfo energyUsage now schemaFields data

/-! ## Credential retry (`AuthHandler.get_credentials_with_retry`) -/

/-- The retry bound `max_attempts` of `get_credentials_with_retry`. -/
def max_attempts : Nat := 3

/-- Credential pair produced by attempt number `attempt` of the generator:
attempt 0 calls `AuthHandler.get_credentials` (environment first, prompt
otherwise), every later attempt prompts afresh. -/
def credentialAttempt (getCredentials : String × String)
    (promptAt : Nat → String × String) (attempt : Nat) : String × String :=
  if attempt = 0 then getCredentials else promptAt attempt

/-- `AuthHandler.get_credentials_with_retry`, run to exhaustion (the caller
rejects every yielded pair): the list of pairs yielded by the
`for attempt in range(max_attempts)` loop, and the message of the
`AuthenticationError` raised after the loop. -/
def get_credentials_with_retry (getCredentials : String × String)
    (promptAt : Nat → String × String) : List (String × String) × String :=
  ((List.range max_attempts).map (credentialAttempt getCredentials promptAt),
   "Authentication failed after 3 attempts")

/-! ## Poll orchestrator (`main.py`) -/

/-- Result of one `collect_all_data` cycle: the devices the loop attempted
to read (in iteration order), the per-type `saved_devices` flags, and the
per-device errors caught and logged by the `except` arms. -/
structure CycleResult where
  attempted : List String
  savedTypes : List (String × Bool)
  errors : List (String × String)
deriving DecidableEq, Repr

/-- Inner device loop for one type: every device in the list is attempted
in order; a success sets the type's saved flag, a failure (timeout,
authentication rejection, anything) is caught, recorded, and the loop
moves on to the next device. -/
def collectType (readAndSave : String → String → Except String Unit) (dt : String) :
    List String → Bool × List (String × String)
  | [] => (false, [])
  | n :: rest =>
    match readAndSave dt n with
    | .ok _ => let r := collectType readAndSave dt rest; (true, r.2)
    | .error e => let r := collectType readAndSave dt rest; (r.1, (n, e) :: r.2)

/-- `collect_all_data` from `main.py`: iterate every configured
(type, devices) group; `readAndSave` is the body of the per-device `try`
(credential lookup, adapter read under its timeout, persistence). -/
def collect_all_data (readAndSave : String → String → Except String Unit) :
    List (String × List String) → CycleResult
  | [] => ⟨[], [], []⟩
  | (dt, names) :: rest =>
    let r := collectType readAndSave dt names
    let rr := collect_all_data readAndSave rest
    ⟨names ++ rr.attempted, (dt, r.1) :: rr.savedTypes, r.2 ++ rr.errors⟩

/-- All configured device names, in the order the loop visits them. -/
def allDevices (devicesByType : List (String × List String)) : List String :=
  devicesByType.flatMap Prod.snd

/-- The steady polling loop of `main.py`: `devices_by_type` is computed
once before the loop and never mutated, no per-device state survives a
cycle, so cycle `n` is `collect_all_data` applied to cycle `n`'s read
outcomes over the fixed device groups. -/
def cycleResults (devicesByType : List (String × List String))
    (readAndSave : Nat → String → String → Except String Unit) (n : Nat) : CycleResult :=
  collect_all_data (readAndSave n) devicesByType

/-- Concrete two-device configuration: one cloud plug, one Modbus meter. -/
def exDevicesByType : List (String × List String) :=
  [("SmartPlug", ["plugA"]), ("schneider", ["meterB"])]

/-- Concrete read outcomes: on every cycle `plugA` fails with the vendor's
credential-rejection error while `meterB` succeeds. -/
def exAuthRead : Nat → String → String → Except String Unit :=
  fun _ _ n => if n = "plugA" then .error "Invalid credentials" else .ok ()

/-! ## Type tables (`DeviceTableManager.create_type_tables_from_schema`) -/

/-- One schema entry for a device type: `{file, table, schema}` (an empty
string models a missing/falsy YAML value). -/
structure TypeTableSpec where
  file : String
  table : String
  schema : List ColumnDef
deriving DecidableEq, Repr

/-- A DDL operation issued against a datastore file. -/
inductive StoreOp where
  | createTable (file table : String) (cols : List ColumnDef)
  | addColumn (file table : String) (col : ColumnDef)
deriving DecidableEq, Repr

/-- Live datastore state: which (file, table) pairs exist, with their
columns. -/
abbrev StoreState := List ((String × String) × List ColumnDef)

/-- Table lookup in the store state. -/
def lookupTable (st : StoreState) (k : String × String) : Option (List ColumnDef) :=
  match st with
  | [] => none
  | (k', cols) :: rest => if k' = k then some cols else lookupTable rest k

/-- Python `s.startswith(p)`. -/
def strStartsWith (p s : String) : Bool :=
  s.take p.length = p

/-- Column list of the `CREATE TABLE` statement built by
`create_type_tables_from_schema`: surrogate `id`, then `device_name TEXT`
unless some `"name type"` column string starts with `device_name `
followed by the schema's own columns. -/
def typeTableColumns (ti : TypeTableSpec) : List ColumnDef :=
  let hasDeviceName :=
    ti.schema.any (fun c => strStartsWith "device_name " (c.name ++ " " ++ c.sqlType))
  ⟨"id", "INTEGER PRIMARY KEY AUTOINCREMENT"⟩ ::
    (if hasDeviceName then ti.schema else ⟨"device_name", "TEXT"⟩ :: ti.schema)

/-- One iteration of the `for device_type, type_info` loop: skip the
`database` entry and entries missing a file, table or schema; otherwise
run `CREATE TABLE IF NOT EXISTS` — a no-op when the (file, table) pair
already exists, a single create otherwise. -/
def ensureTypeTable (st : StoreState) (dt : String) (ti : TypeTableSpec) :
    StoreState × List StoreOp :=
  if dt = "database" then (st, [])
  else if ti.file = "" ∨ ti.table = "" ∨ ti.schema = [] then (st, [])
  else
    match lookupTable st (ti.file, ti.table) with
    | some _ => (st, [])
    | none =>
      (st ++ [((ti.file, ti.table), typeTableColumns ti)],
       [StoreOp.createTable ti.file ti.table (typeTableColumns ti)])

/-- `DeviceTableManager.create_type_tables_from_schema` over the schema
YAML's entries, threading the datastore state and collecting the DDL
operations issued. -/
def create_type_tables_from_schema (entries : List (String × TypeTableSpec))
    (st : StoreState) : StoreState × List StoreOp :=
  match entries with
  | [] => (st, [])
  | (dt, ti) :: rest =>
    let p := ensureTypeTable st dt ti
    let q := create_type_tables_from_schema rest p.1
    (q.1, p.2 ++ q.2)

/-- Concrete store state: the schneider table already exists with columns
id, device_name, timestamp. -/
def exStoreState : StoreState :=
  [(("energy.db", "schneider_device_metrics"),
    [⟨"id", "INTEGER PRIMARY KEY AUTOINCREMENT"⟩, ⟨"device_name", "TEXT"⟩,
     ⟨"timestamp", "TEXT"⟩])]

/-- Concrete schema entries: the schneider Schema now also declares
`current_power REAL`, missing from the live table. -/
def exEntries : List (String × TypeTableSpec) :=
  [("schneider",
    ⟨"energy.db", "schneider_device_metrics",
     [⟨"device_name", "TEXT"⟩, ⟨"timestamp", "TEXT"⟩, ⟨"current_power", "REAL"⟩]⟩)]

/-! ## Device registry (`create_devices_table_from_schema`,
`insert_devices_from_yaml_to_devices_db`, called in that order by
`main.py` at startup) -/

/-- The schema YAML's `devices_db` entry. -/
structure DevicesDbSpec where
  file : String
  table : String
  schema : List ColumnDef
deriving DecidableEq, Repr

/-- Row inserted for one YAML device: for each schema column, the device's
name for the `name` column, else `info.get(col, blank string)`. -/
def devicesRow (cols : List String) (name : String) (info : List (String × Value)) : Dict :=
  cols.map (fun c =>
    (c, if c = "name" then Value.str name else (dictGet info c).getD (Value.str "")))

/-- `DeviceTableManager.create_devices_table_from_schema`: `DROP TABLE IF
EXISTS` then `CREATE TABLE` — whatever existed before, the result is a
fresh empty registry table with `id` plus the declared columns. -/
def create_devices_table_from_schema (spec : DevicesDbSpec) (_prev : Option Table) : Table :=
  { cols := "id" :: spec.schema.map ColumnDef.name, rows := [] }

/-- `DeviceTableManager.insert_devices_from_yaml_to_devices_db`: one
insert per YAML device, in YAML order (YAML mapping keys are unique, so
the `OR REPLACE` clause never fires on the freshly emptied table). -/
def insert_devices_from_yaml_to_devices_db (spec : DevicesDbSpec)
    (devices : List (String × List (String × Value))) (t : Table) : Table :=
  { t with rows :=
      t.rows ++ devices.map (fun p => devicesRow (spec.schema.map ColumnDef.name) p.1 p.2) }

/-- The startup sequence of `main.py` on the registry table: drop-and-create
then repopulate from the device YAML. -/
def startupRegistry (spec : DevicesDbSpec)
    (devices : List (String × List (String × Value))) (prev : Option Table) : Table :=
  insert_devices_from_yaml_to_devices_db spec devices
    (create_devices_table_from_schema spec prev)

/-! ## Concrete scenario inputs used by witnesses and counterexamples -/

/-- Concrete Modbus schema: five single-register fields. -/
def exFields : List ModbusField :=
  [⟨"voltage", 3027, 1, 1, ">I"⟩, ⟨"current", 3000, 1, 1, ">I"⟩,
   ⟨"power", 3054, 1, 1, ">I"⟩, ⟨"energy", 3204, 1, 1, ">I"⟩,
   ⟨"frequency", 3110, 1, 1, ">I"⟩]

/-- Concrete transport behaviour: the `current` and `energy` register reads
time out, the other three return one register. -/
def exOracle : ModbusField → Except String (List Int) :=
  fun f => if f.name = "current" ∨ f.name = "energy" then .error "timed out"
           else .ok [100]

/-- Schneider schema entries matching `exFields` plus a timestamp column. -/
def exSchemaCols : List ColumnDef :=
  exFields.map (fun f => ⟨f.name, "REAL"⟩) ++ [⟨"timestamp", "TEXT"⟩]

/-- The schneider metrics table as created at startup for that schema. -/
def exTable : Table :=
  ⟨"id" :: "device_name" :: exFields.map ModbusField.name ++ ["timestamp"], []⟩

/-- Concrete Tapo device-status sub-response: only `current_power` is set. -/
def exTapoInfo : String → Value :=
  fun s => if s = "current_power" then Value.real 52 else Value.null

/-- Concrete Tapo energy-usage sub-response: only `today_energy` is set. -/
def exTapoUsage : String → Value :=
  fun s => if s = "today_energy" then Value.int 1200 else Value.null

/-- Concrete SmartPlug schema field names. -/
def exTapoSchema : List String :=
  ["device_name", "current_power", "today_energy", "timestamp", "overheated"]

/-- Concrete `devices_db` entry. -/
def exDevicesDb : DevicesDbSpec :=
  ⟨"devices.db", "devices", [⟨"name", "TEXT"⟩, ⟨"type", "TEXT"⟩, ⟨"ip", "TEXT"⟩]⟩

/-- Concrete device YAML content. -/
def exYamlDevices : List (String × List (String × Value)) :=
  [("plugA", [("type", Value.str "SmartPlug"), ("ip", Value.str "10.0.0.5")]),
   ("meterB", [("type", Value.str "schneider"), ("ip", Value.str "10.0.0.9")])]

/-- A registry table surviving from a previous run, holding a stale row. -/
def exPrevRegistry : Table :=
  ⟨["id", "name", "type", "ip"], [[("name", Value.str "ghost")]]⟩

/-! ## Helper lemmas -/

theorem dictGet_set_self (d : Dict) (k : String) (v : Value) :
    dictGet (dictSet d k v) k = some v := by
  induction d with
  | nil => simp [dictGet, dictSet]
  | cons p rest ih =>
    obtain ⟨k', v'⟩ := p
    by_cases h : k' = k
    · subst h; simp [dictSet, dictGet]
    · simp [dictSet, dictGet, h, ih]

theorem dictGet_set_ne (d : Dict) (k k' : String) (v : Value) (h : k ≠ k') :
    dictGet (dictSet d k v) k' = dictGet d k' := by
  induction d with
  | nil => simp [dictGet, dictSet, h]
  | cons p rest ih =>
    obtain ⟨k0, v0⟩ := p
    by_cases h0 : k0 = k
    · subst h0; simp [dictSet, dictGet, h]
    · simp [dictSet, dictGet, h0, ih]

theorem dictGet_map_assoc (cols : List String) (g : String → Value) (k : String) :
    dictGet (cols.map (fun c => (c, g c))) k
      = if k ∈ cols then some (g k) else none := by
  induction cols with
  | nil => simp [dictGet]
  | cons c rest ih =>
    by_cases h : c = k
    · subst h; simp [dictGet]
    · simp [dictGet, h, ih, Ne.symm h]

theorem zip_self_map (l : List String) (g : String → Value) :
    l.zip (l.map g) = l.map (fun c => (c, g c)) := by
  induction l with
  | nil => rfl
  | cons c rest ih => simp [ih]

/-! ## C5: single-register decode -/

/-- C5: for a Modbus ColumnSpec with `registerCount == 1`, the decoded value
is the raw 16-bit register divided by `scale` when `scale > 1` and the raw
register unchanged when `scale <= 1`; in particular a single register 1234
with scale 10 decodes to 123.4. -/
theorem modbus_single_register_decode (name : String) (addr : Int) (scale : ℚ)
    (fmt : String) (r0 : Int) (rest : List Int) :
    decodeField ⟨name, addr, 1, scale, fmt⟩ (r0 :: rest)
      = .ok (if scale > 1 then .real ((r0 : ℚ) / scale) else .int r0) ∧
    decodeField ⟨"current", 3000, 1, 10, ">I"⟩ [1234]
      = .ok (.real (1234 / 10)) := by
  constructor
  · simp [decodeField]
  · norm_num [decodeField]

/-! ## C4: two-register float decode -/

/-- C4: for `registerCount == 2` with the 32-bit float wire format, each
register is masked to 16 bits, the pair is packed big-endian, reinterpreted
as an IEEE-754 float, and divided by `scale` when `scale > 1`; for any
transport representation of the registers `[0x3F80, 0x0000]` — including
sign-extended negative values, i.e. any integers with those low 16 bits —
scale 1 decodes to exactly 1.0 (and a scale `s > 1` to `1/s`). -/
theorem modbus_float32_decode (name : String) (addr : Int) (r0 r1 : Int) (s : ℚ)
    (h0 : mask16 r0 = 0x3F80) (h1 : mask16 r1 = 0) (hs : 1 < s) :
    decodeField ⟨name, addr, 2, 1, ">f"⟩ [r0, r1] = .ok (.real 1) ∧
    decodeField ⟨name, addr, 2, s, ">f"⟩ [r0, r1] = .ok (.real (1 / s)) := by
  have hf : float32ToRat (mask16 r0 * 65536 + mask16 r1) = some 1 := by
    rw [h0, h1]; norm_num [float32ToRat]
  constructor
  · simp [decodeField, hf]
  · simp [decodeField, hf, hs]

/-- Witness for C4: the registers transported as `0x3F80` and `-65536`
(a sign-extended representation whose low 16 bits are zero) decode to 1.0. -/
theorem modbus_float32_decode_witness :
    mask16 0x3F80 = 0x3F80 ∧ mask16 (-65536) = 0 ∧
    decodeField ⟨"power", 3054, 2, 1, ">f"⟩ [0x3F80, -65536] = .ok (.real 1) :=
  ⟨by decide, by decide,
   (modbus_float32_decode "power" 3054 0x3F80 (-65536) 2 (by decide) (by decide)
     (by norm_num)).1⟩

/-! ## C2: unsupported (registerCount, wireFormat) combinations -/

/-- C2 counterexample: a two-register column with the unsigned 32-bit wire
format `>I` — neither a single register nor a supported two-register float —
does NOT produce a validation error: the code's else-branch silently decodes
the first register alone. -/
theorem modbus_unsupported_combo_decoded :
    decodeField ⟨"power", 100, 2, 1, ">I"⟩ [1, 2] = .ok (.int 1) := by
  rfl

/-- C2 amended: every (`registerCount`, `wireFormat`) combination other than
(2, `>f`) — including two-register non-float formats and register counts
above 2 — is decoded as the raw first register divided by `scale` when
`scale > 1`; no combination yields a validation error. -/
theorem modbus_other_combo_decodes_first_register (name : String) (addr : Int)
    (len : Nat) (scale : ℚ) (fmt : String) (r0 : Int) (rest : List Int)
    (h : ¬(len = 2 ∧ fmt = ">f")) :
    decodeField ⟨name, addr, len, scale, fmt⟩ (r0 :: rest)
      = .ok (if scale > 1 then .real ((r0 : ℚ) / scale) else .int r0) := by
  simp [decodeField, h]

/-- Witness for the C2 amended theorem at the counterexample's input. -/
theorem modbus_other_combo_decodes_first_register_witness :
    ¬((2 : Nat) = 2 ∧ ">I" = ">f") ∧
    decodeField ⟨"power", 100, 2, 1, ">I"⟩ [1, 2] = .ok (.int 1) := by
  refine ⟨by decide, ?_⟩
  have h := modbus_other_combo_decodes_first_register "power" 100 2 1 ">I" 1 [2]
    (by decide)
  norm_num at h
  exact h

/-! ## C7: bounded credential retry -/

/-- C7: the credential-retry generator yields exactly the three pairs —
attempt 0 from `get_credentials`, attempts 1 and 2 from fresh prompts —
then raises `AuthenticationError`; no prompt beyond the third attempt is
ever consulted. -/
theorem credentials_retry_bound (g : String × String) (p : Nat → String × String) :
    (get_credentials_with_retry g p).1.length = 3 ∧
    (get_credentials_with_retry g p).1 = [g, p 1, p 2] ∧
    (get_credentials_with_retry g p).2 = "Authentication failed after 3 attempts" :=
  ⟨rfl, rfl, rfl⟩

/-! ## C3: orchestrator reaction to authentication faults -/

/-- C3 counterexample: `plugA` fails with the vendor's credential-rejection
error on every cycle (cycles 0, 1 and 2 each record that error), yet on
cycle 3 — after three consecutive authentication failures — the orchestrator
still polls `plugA` exactly as before: the device is never suspended or
disabled, no re-authentication state exists, and `meterB` is unaffected. -/
theorem auth_fault_device_still_polled :
    (cycleResults exDevicesByType exAuthRead 0).errors
        = [("plugA", "Invalid credentials")] ∧
    (cycleResults exDevicesByType exAuthRead 1).errors
        = [("plugA", "Invalid credentials")] ∧
    (cycleResults exDevicesByType exAuthRead 2).errors
        = [("plugA", "Invalid credentials")] ∧
    (cycleResults exDevicesByType exAuthRead 3).attempted = ["plugA", "meterB"] ∧
    (cycleResults exDevicesByType exAuthRead 3).savedTypes
        = [("SmartPlug", false), ("schneider", true)] := by
  decide

/-- C3 amended: the orchestrator treats an `AuthenticationFault` like every
other per-device exception: the error is caught and logged for that cycle
and nothing else changes — no credential retry is triggered, no device is
suspended or disabled, and every configured device (the faulting one
included) is attempted again on every subsequent cycle; other devices'
polling is unaffected. -/
theorem poll_loop_never_disables (devicesByType : List (String × List String))
    (readAndSave : Nat → String → String → Except String Unit) (n : Nat) :
    (cycleResults devicesByType readAndSave n).attempted = allDevices devicesByType := by
  unfold cycleResults allDevices
  induction devicesByType with
  | nil => rfl
  | cons p rest ih =>
    obtain ⟨dt, names⟩ := p
    simp [collect_all_data, ih]

/-! ## C8: Cloud (Tapo) field projection -/

theorem tapoFields_get_not_mem (di eu : String → Value) (now : String)
    (fields : List String) (data : Dict) (k : String) (hk : k ∉ fields) :
    dictGet (tapoFields di eu now fields data) k = dictGet data k := by
  induction fields generalizing data with
  | nil => rfl
  | cons fname rest ih =>
    have hk' : k ∉ rest := fun h => hk (List.mem_cons_of_mem _ h)
    have hne : fname ≠ k := fun h => hk (h ▸ List.mem_cons_self _ _)
    by_cases hd : fname = "device_name"
    · simp [tapoFields, hd, ih _ hk']
    · simp [tapoFields, hd, ih _ hk', dictGet_set_ne _ _ _ _ hne]

theorem tapoFields_get_device_name (di eu : String → Value) (now : String)
    (fields : List String) (data : Dict) :
    dictGet (tapoFields di eu now fields data) "device_name"
      = dictGet data "device_name" := by
  induction fields generalizing data with
  | nil => rfl
  | cons fname rest ih =>
    by_cases hd : fname = "device_name"
    · simp [tapoFields, hd, ih]
    · simp [tapoFields, hd, ih, dictGet_set_ne _ _ _ _ hd]

theorem tapoFields_get_mem (di eu : String → Value) (now : String)
    (fields : List String) (data : Dict) (k : String) (hk : k ∈ fields)
    (hne : k ≠ "device_name") :
    dictGet (tapoFields di eu now fields data) k
      = some (tapoValue di eu now k) := by
  induction fields generalizing data with
  | nil => exact absurd hk (List.not_mem_nil k)
  | cons fname rest ih =>
    by_cases hd : fname = "device_name"
    · have hr : k ∈ rest := by
        rcases List.mem_cons.mp hk with h | h
        · exact absurd (h.trans hd) hne
        · exact h
      simp [tapoFields, hd, ih _ hr]
    · by_cases hr : k ∈ rest
      · simp [tapoFields, hd, ih _ hr]
      · have hke : k = fname := by
          rcases List.mem_cons.mp hk with h | h
          · exact h
          · exact absurd h hr
        subst hke
        simp [tapoFields, hd, tapoFields_get_not_mem di eu now rest _ k hr,
          dictGet_set_self]

/-- C8 counterexample: a `device_name` ColumnSpec is absent from both
sub-responses, so the claim would make its value `NULL`; the code instead
stores the configured device name. -/
theorem tapo_device_name_not_null :
    exTapoInfo "device_name" = Value.null ∧ exTapoUsage "device_name" = Value.null ∧
    dictGet (get_tapo_device_data (some "plugA") exTapoInfo exTapoUsage "T0" exTapoSchema)
      "device_name" = some (Value.str "plugA") := by
  refine ⟨rfl, rfl, ?_⟩
  rfl

/-- C8 amended: for every ColumnSpec other than `device_name`, taken in
schema order: the timestamp column gets the current time, any other column
gets the field looked up first in the device-status sub-response and, when
absent (`None`) there, in the energy-usage sub-response, `NULL` when absent
from both; the `device_name` column is never looked up in the
sub-responses — it carries the configured device name when one was passed
and is skipped entirely otherwise. -/
theorem tapo_field_mapping (dn : Option String) (di eu : String → Value)
    (now : String) (fields : List String) :
    dictGet (get_tapo_device_data dn di eu now fields) "device_name"
      = dn.map Value.str ∧
    ∀ fname ∈ fields, fname ≠ "device_name" →
      dictGet (get_tapo_device_data dn di eu now fields) fname
        = some (if fname = "timestamp" then Value.str now
                else if di fname ≠ Value.null then di fname else eu fname) := by
  constructor
  · rw [get_tapo_device_data.eq_def, tapoFields_get_device_name]
    cases dn with
    | none => rfl
    | some n => rfl
  · intro fname hmem hne
    rw [get_tapo_device_data.eq_def, tapoFields_get_mem di eu now fields _ fname hmem hne]
    rfl

/-- Witness for the C8 amended theorem: `current_power` is present in the
device-status sub-response and is projected from there. -/
theorem tapo_field_mapping_witness :
    ("current_power" ∈ exTapoSchema ∧ "current_power" ≠ "device_name") ∧
    dictGet (get_tapo_device_data (some "plugA") exTapoInfo exTapoUsage "T0" exTapoSchema)
      "current_power" = some (Value.real 52) := by
  refine ⟨⟨by decide, by decide⟩, ?_⟩
  have h := (tapo_field_mapping (some "plugA") exTapoInfo exTapoUsage "T0" exTapoSchema).2
    "current_power" (by decide) (by decide)
  rw [h]
  decide

/-! ## C1 and C9: the type-table store -/

theorem lookupTable_append_left (st l : StoreState) (k : String × String)
    (v : List ColumnDef) (h : lookupTable st k = some v) :
    lookupTable (st ++ l) k = some v := by
  induction st with
  | nil => simp [lookupTable] at h
  | cons p rest ih =>
    obtain ⟨k0, c0⟩ := p
    by_cases hk : k0 = k
    · simp [lookupTable, hk] at h ⊢; exact h
    · simp [lookupTable, hk] at h ⊢; exact ih h

theorem lookupTable_append_new (st : StoreState) (k : String × String)
    (c : List ColumnDef) (h : lookupTable st k = none) :
    lookupTable (st ++ [(k, c)]) k = some c := by
  induction st with
  | nil => simp [lookupTable]
  | cons p rest ih =>
    obtain ⟨k0, c0⟩ := p
    by_cases hk : k0 = k
    · simp [lookupTable, hk] at h
    · simp [lookupTable, hk] at h ⊢; exact ih h

theorem ensureTypeTable_preserves (st : StoreState) (dt : String) (ti : TypeTableSpec)
    (k : String × String) (v : List ColumnDef) (h : lookupTable st k = some v) :
    lookupTable (ensureTypeTable st dt ti).1 k = some v := by
  by_cases h1 : dt = "database"
  · simpa [ensureTypeTable, h1] using h
  · by_cases h2 : ti.file = "" ∨ ti.table = "" ∨ ti.schema = []
    · simpa [ensureTypeTable, h1, h2] using h
    · cases hl : lookupTable st (ti.file, ti.table) with
      | some c => simpa [ensureTypeTable, h1, h2, hl] using h
      | none =>
        simp only [ensureTypeTable, h1, h2, hl, if_neg, if_false]
        simpa using lookupTable_append_left st _ k v h

theorem run_preserves (entries : List (String × TypeTableSpec)) (st : StoreState)
    (k : String × String) (v : List ColumnDef) (h : lookupTable st k = some v) :
    lookupTable (create_type_tables_from_schema entries st).1 k = some v := by
  induction entries generalizing st with
  | nil => exact h
  | cons e rest ih =>
    obtain ⟨dt, ti⟩ := e
    simp only [create_type_tables_from_schema]
    exact ih _ (ensureTypeTable_preserves st dt ti k v h)

theorem ensureTypeTable_ops (st : StoreState) (dt : String) (ti : TypeTableSpec) :
    ∀ op ∈ (ensureTypeTable st dt ti).2, ∃ f t c, op = StoreOp.createTable f t c := by
  by_cases h1 : dt = "database"
  · simp [ensureTypeTable, h1]
  · by_cases h2 : ti.file = "" ∨ ti.table = "" ∨ ti.schema = []
    · simp [ensureTypeTable, h1, h2]
    · cases hl : lookupTable st (ti.file, ti.table) with
      | some c => simp [ensureTypeTable, h1, h2, hl]
      | none =>
        simp [ensureTypeTable, h1, h2, hl]

theorem run_ops (entries : List (String × TypeTableSpec)) (st : StoreState) :
    ∀ op ∈ (create_type_tables_from_schema entries st).2,
      ∃ f t c, op = StoreOp.createTable f t c := by
  induction entries generalizing st with
  | nil => simp [create_type_tables_from_schema]
  | cons e rest ih =>
    obtain ⟨dt, ti⟩ := e
    intro op hop
    simp only [create_type_tables_from_schema, List.mem_append] at hop
    rcases hop with hop | hop
    · exact ensureTypeTable_ops st dt ti op hop
    · exact ih _ op hop

/-- C1 counterexample: the schneider table already exists with columns
`{id, device_name, timestamp}` and the Schema now also declares
`current_power REAL`; the next `create_type_tables_from_schema` call issues
NO operation at all — zero add-column operations where the claim requires
exactly one — and leaves the live table without `current_power`. -/
theorem schema_evolution_adds_no_column :
    (create_type_tables_from_schema exEntries exStoreState).2 = [] ∧
    (create_type_tables_from_schema exEntries exStoreState).1 = exStoreState := by
  decide

/-- C1 amended: on a subsequent `EnsureTable` call for a (file, table) pair
whose table already exists, the store issues no operation of any kind: it
never issues an add-column operation (missing Schema columns are NOT added,
so subsequent inserts cannot populate them), and it never alters or drops an
existing column — the existing table's column list is unchanged. -/
theorem ensure_table_existing_untouched (entries : List (String × TypeTableSpec))
    (st : StoreState) (k : String × String) (cols : List ColumnDef)
    (h : lookupTable st k = some cols) :
    lookupTable (create_type_tables_from_schema entries st).1 k = some cols ∧
    ∀ f t c, StoreOp.addColumn f t c ∉ (create_type_tables_from_schema entries st).2 := by
  refine ⟨run_preserves entries st k cols h, ?_⟩
  intro f t c hmem
  obtain ⟨f', t', c', he⟩ := run_ops entries st _ hmem
  exact StoreOp.noConfusion he

/-- Witness for the C1 amended theorem at the counterexample's input. -/
theorem ensure_table_existing_untouched_witness :
    lookupTable exStoreState ("energy.db", "schneider_device_metrics")
      = some [⟨"id", "INTEGER PRIMARY KEY AUTOINCREMENT"⟩, ⟨"device_name", "TEXT"⟩,
              ⟨"timestamp", "TEXT"⟩] ∧
    lookupTable (create_type_tables_from_schema exEntries exStoreState).1
      ("energy.db", "schneider_device_metrics")
      = some [⟨"id", "INTEGER PRIMARY KEY AUTOINCREMENT"⟩, ⟨"device_name", "TEXT"⟩,
              ⟨"timestamp", "TEXT"⟩] :=
  ⟨by decide,
   (ensure_table_existing_untouched exEntries exStoreState
     ("energy.db", "schneider_device_metrics") _ (by decide)).1⟩

theorem ensureTypeTable_of_cond (st : StoreState) (dt : String) (ti : TypeTableSpec)
    (h : dt = "database" ∨ ti.file = "" ∨ ti.table = "" ∨ ti.schema = []
      ∨ ∃ c, lookupTable st (ti.file, ti.table) = some c) :
    ensureTypeTable st dt ti = (st, []) := by
  rcases h with h | h | h | h | ⟨c, hc⟩
  · simp [ensureTypeTable, h]
  · simp [ensureTypeTable, h]
  · simp [ensureTypeTable, h]
  · simp [ensureTypeTable, h]
  · by_cases h1 : dt = "database"
    · simp [ensureTypeTable, h1]
    · by_cases h2 : ti.file = "" ∨ ti.table = "" ∨ ti.schema = []
      · simp [ensureTypeTable, h1, h2]
      · simp [ensureTypeTable, h1, h2, hc]

theorem ensureTypeTable_establishes (st : StoreState) (dt : String) (ti : TypeTableSpec) :
    dt = "database" ∨ ti.file = "" ∨ ti.table = "" ∨ ti.schema = []
      ∨ ∃ c, lookupTable (ensureTypeTable st dt ti).1 (ti.file, ti.table) = some c := by
  by_cases h1 : dt = "database"
  · exact Or.inl h1
  · by_cases h2 : ti.file = "" ∨ ti.table = "" ∨ ti.schema = []
    · rcases h2 with h | h | h
      · exact Or.inr (Or.inl h)
      · exact Or.inr (Or.inr (Or.inl h))
      · exact Or.inr (Or.inr (Or.inr (Or.inl h)))
    · refine Or.inr (Or.inr (Or.inr (Or.inr ?_)))
      cases hl : lookupTable st (ti.file, ti.table) with
      | some c =>
        refine ⟨c, ?_⟩
        simp [ensureTypeTable, h1, h2, hl]
      | none =>
        refine ⟨typeTableColumns ti, ?_⟩
        simp only [ensureTypeTable, h1, h2, hl, if_neg, if_false]
        simpa using lookupTable_append_new st _ _ hl

theorem run_establishes (entries : List (String × TypeTableSpec)) (st : StoreState) :
    ∀ dt ti, (dt, ti) ∈ entries →
      dt = "database" ∨ ti.file = "" ∨ ti.table = "" ∨ ti.schema = []
        ∨ ∃ c, lookupTable (create_type_tables_from_schema entries st).1
            (ti.file, ti.table) = some c := by
  induction entries generalizing st with
  | nil => intro dt ti h; exact absurd h (List.not_mem_nil _)
  | cons e rest ih =>
    obtain ⟨dt0, ti0⟩ := e
    intro dt ti hmem
    rcases List.mem_cons.mp hmem with he | hr
    · obtain ⟨h1, h2⟩ : dt = dt0 ∧ ti = ti0 := Prod.mk.injEq .. ▸ he
      subst h1; subst h2
      rcases ensureTypeTable_establishes st dt ti with h | h | h | h | ⟨c, hc⟩
      · exact Or.inl h
      · exact Or.inr (Or.inl h)
      · exact Or.inr (Or.inr (Or.inl h))
      · exact Or.inr (Or.inr (Or.inr (Or.inl h)))
      · refine Or.inr (Or.inr (Or.inr (Or.inr ⟨c, ?_⟩)))
        simp only [create_type_tables_from_schema]
        exact run_preserves rest _ _ c hc
    · have h := ih (ensureTypeTable st dt0 ti0).1 dt ti hr
      simpa only [create_type_tables_from_schema] using h

theorem run_of_all_noop (entries : List (String × TypeTableSpec)) (st : StoreState)
    (h : ∀ dt ti, (dt, ti) ∈ entries → ensureTypeTable st dt ti = (st, [])) :
    create_type_tables_from_schema entries st = (st, []) := by
  induction entries with
  | nil => rfl
  | cons e rest ih =>
    obtain ⟨dt0, ti0⟩ := e
    have h0 := h dt0 ti0 (List.mem_cons_self _ _)
    have hr := ih (fun dt ti hm => h dt ti (List.mem_cons_of_mem _ hm))
    simp [create_type_tables_from_schema, h0, hr]

/-- C9: `EnsureTable` followed by `EnsureTable` on the same unchanged Schema
produces no additional operation whatsoever — the second
`create_type_tables_from_schema` pass issues no table-create (and trivially
no column-add) operation and leaves the datastore state unchanged. -/
theorem ensure_table_idempotent (entries : List (String × TypeTableSpec))
    (st : StoreState) :
    create_type_tables_from_schema entries (create_type_tables_from_schema entries st).1
      = ((create_type_tables_from_schema entries st).1, []) := by
  apply run_of_all_noop
  intro dt ti hm
  exact ensureTypeTable_of_cond _ dt ti (run_establishes entries st dt ti hm)

/-! ## C10: device registry rebuilt at startup -/

/-- C10: at startup the registry table described by `devices_db` is dropped
and recreated empty, then repopulated from the device YAML — whatever the
previous run left behind, the resulting table holds exactly one row per
device of the current YAML, in YAML order, and the `name` column of those
rows lists exactly the YAML's device names. -/
theorem dictGet_devicesRow_name (cols : List String) (n : String)
    (info : List (String × Value)) (h : "name" ∈ cols) :
    dictGet (devicesRow cols n info) "name" = some (Value.str n) := by
  unfold devicesRow
  rw [dictGet_map_assoc]
  simp [h]

theorem startup_registry_exact (spec : DevicesDbSpec)
    (devices : List (String × List (String × Value)))
    (prev prev' : Option Table)
    (_hnd : (devices.map Prod.fst).Nodup)
    (hname : "name" ∈ spec.schema.map ColumnDef.name) :
    startupRegistry spec devices prev = startupRegistry spec devices prev' ∧
    (startupRegistry spec devices prev).rows
      = devices.map (fun p => devicesRow (spec.schema.map ColumnDef.name) p.1 p.2) ∧
    (startupRegistry spec devices prev).rows.map (fun r => dictGet r "name")
      = devices.map (fun p => some (Value.str p.1)) := by
  refine ⟨rfl, ?_, ?_⟩
  · simp [startupRegistry, insert_devices_from_yaml_to_devices_db,
      create_devices_table_from_schema]
  · simp only [startupRegistry, insert_devices_from_yaml_to_devices_db,
      create_devices_table_from_schema, List.nil_append, List.map_map]
    refine List.map_congr_left ?_
    intro p _
    exact dictGet_devicesRow_name _ _ _ hname

/-- Witness for C10: two YAML devices, a stale registry row from a previous
run; after startup the registry names are exactly the YAML's device names. -/
theorem startup_registry_exact_witness :
    (exYamlDevices.map Prod.fst).Nodup ∧
    ("name" ∈ exDevicesDb.schema.map ColumnDef.name) ∧
    (startupRegistry exDevicesDb exYamlDevices (some exPrevRegistry)).rows.map
        (fun r => dictGet r "name")
      = [some (Value.str "plugA"), some (Value.str "meterB")] := by
  refine ⟨by decide, by decide, ?_⟩
  have h := (startup_registry_exact exDevicesDb exYamlDevices (some exPrevRegistry) none
    (by decide) (by decide)).2.2
  rw [h]
  decide

/-! ## C6: partial Modbus failures -/

theorem modbusCollect_get_frame (oracle : ModbusField → Except String (List Int))
    (now : String) (fields : List ModbusField) (data : Dict) (k : String)
    (hts : ∀ g ∈ fields, g.name ≠ "timestamp")
    (h1 : ∀ g ∈ fields, g.name ≠ k ∧ g.name ++ "_error" ≠ k) :
    dictGet (modbusCollect oracle now fields data) k = dictGet data k := by
  induction fields generalizing data with
  | nil => rfl
  | cons f rest ih =>
    have hts' : ∀ g ∈ rest, g.name ≠ "timestamp" :=
      fun g hg => hts g (List.mem_cons_of_mem _ hg)
    have h1' : ∀ g ∈ rest, g.name ≠ k ∧ g.name ++ "_error" ≠ k :=
      fun g hg => h1 g (List.mem_cons_of_mem _ hg)
    have hf1 := h1 f (List.mem_cons_self _ _)
    have hfts := hts f (List.mem_cons_self _ _)
    by_cases hd : f.name = "device_name"
    · simp [modbusCollect, hd, ih _ hts' h1']
    · cases hro : readOutcome oracle f with
      | ok v =>
        simp [modbusCollect, hd, hfts, hro, ih _ hts' h1',
          dictGet_set_ne _ _ _ _ hf1.1]
      | error e =>
        simp [modbusCollect, hd, hfts, hro, ih _ hts' h1',
          dictGet_set_ne _ _ _ _ hf1.2]

theorem modbusCollect_get_field (oracle : ModbusField → Except String (List Int))
    (now : String) (fields : List ModbusField) (data : Dict) (f : ModbusField)
    (hf : f ∈ fields)
    (hnod : (fields.map ModbusField.name).Nodup)
    (hna : ∀ g ∈ fields, g.name ≠ "device_name" ∧ g.name ≠ "timestamp")
    (hce : ∀ g ∈ fields, ∀ g' ∈ fields, g.name ++ "_error" ≠ g'.name) :
    dictGet (modbusCollect oracle now fields data) f.name
      = (match readOutcome oracle f with
         | .ok v => some v
         | .error _ => dictGet data f.name) := by
  induction fields generalizing data with
  | nil => cases hf
  | cons g rest ih =>
    have hg_na := hna g (List.mem_cons_self _ _)
    have hnod' : (rest.map ModbusField.name).Nodup := (List.nodup_cons.mp hnod).2
    have hgn : g.name ∉ rest.map ModbusField.name := (List.nodup_cons.mp hnod).1
    have hna' : ∀ g' ∈ rest, g'.name ≠ "device_name" ∧ g'.name ≠ "timestamp" :=
      fun g' hg' => hna g' (List.mem_cons_of_mem _ hg')
    have hce' : ∀ g' ∈ rest, ∀ g'' ∈ rest, g'.name ++ "_error" ≠ g''.name :=
      fun g' hg' g'' hg'' =>
        hce g' (List.mem_cons_of_mem _ hg') g'' (List.mem_cons_of_mem _ hg'')
    rcases List.mem_cons.mp hf with hgf | hfr
    · subst hgf
      have hts' : ∀ g' ∈ rest, g'.name ≠ "timestamp" := fun g' hg' => (hna' g' hg').2
      have hfr1 : ∀ g' ∈ rest, g'.name ≠ f.name ∧ g'.name ++ "_error" ≠ f.name := by
        intro g' hg'
        constructor
        · intro hcon
          exact hgn (hcon ▸ List.mem_map_of_mem ModbusField.name hg')
        · exact hce g' (List.mem_cons_of_mem _ hg') f (List.mem_cons_self _ _)
      cases hro : readOutcome oracle f with
      | ok v =>
        simp only [modbusCollect, hg_na.1, hg_na.2, hro, if_neg, if_false]
        rw [modbusCollect_get_frame oracle now rest _ f.name hts' hfr1,
          dictGet_set_self]
      | error e =>
        simp only [modbusCollect, hg_na.1, hg_na.2, hro, if_neg, if_false]
        rw [modbusCollect_get_frame oracle now rest _ f.name hts' hfr1,
          dictGet_set_ne _ _ _ _ (hce f (List.mem_cons_self _ _) f (List.mem_cons_self _ _))]
    · have hgf : g.name ≠ f.name := by
        intro hcon
        exact hgn (hcon ▸ List.mem_map_of_mem ModbusField.name hfr)
      by_cases hd : g.name = "device_name"
      · simp [modbusCollect, hd, ih _ hfr hnod' hna' hce']
      · cases hro : readOutcome oracle g with
        | ok v =>
          simp only [modbusCollect, hd, hg_na.2, hro, if_neg, if_false]
          rw [ih _ hfr hnod' hna' hce']
          cases readOutcome oracle f with
          | ok w => rfl
          | error e' => exact dictGet_set_ne _ _ _ _ hgf
        | error e =>
          simp only [modbusCollect, hd, hg_na.2, hro, if_neg, if_false]
          rw [ih _ hfr hnod' hna' hce']
          cases readOutcome oracle f with
          | ok w => rfl
          | error e' =>
            exact dictGet_set_ne _ _ _ _ (hce g (List.mem_cons_self _ _) f (List.mem_cons_of_mem _ hfr))

theorem modbusCollect_get_error_key (oracle : ModbusField → Except String (List Int))
    (now : String) (fields : List ModbusField) (data : Dict) (f : ModbusField)
    (hf : f ∈ fields)
    (hnod : (fields.map ModbusField.name).Nodup)
    (hna : ∀ g ∈ fields, g.name ≠ "device_name" ∧ g.name ≠ "timestamp")
    (hce : ∀ g ∈ fields, ∀ g' ∈ fields, g.name ++ "_error" ≠ g'.name)
    (hee : ∀ g ∈ fields, ∀ g' ∈ fields, g.name ≠ g'.name →
      g.name ++ "_error" ≠ g'.name ++ "_error") :
    dictGet (modbusCollect oracle now fields data) (f.name ++ "_error")
      = (match readOutcome oracle f with
         | .ok _ => dictGet data (f.name ++ "_error")
         | .error e => some (Value.str e)) := by
  induction fields generalizing data with
  | nil => cases hf
  | cons g rest ih =>
    have hg_na := hna g (List.mem_cons_self _ _)
    have hnod' : (rest.map ModbusField.name).Nodup := (List.nodup_cons.mp hnod).2
    have hgn : g.name ∉ rest.map ModbusField.name := (List.nodup_cons.mp hnod).1
    have hna' : ∀ g' ∈ rest, g'.name ≠ "device_name" ∧ g'.name ≠ "timestamp" :=
      fun g' hg' => hna g' (List.mem_cons_of_mem _ hg')
    have hce' : ∀ g' ∈ rest, ∀ g'' ∈ rest, g'.name ++ "_error" ≠ g''.name :=
      fun g' hg' g'' hg'' =>
        hce g' (List.mem_cons_of_mem _ hg') g'' (List.mem_cons_of_mem _ hg'')
    have hee' : ∀ g' ∈ rest, ∀ g'' ∈ rest, g'.name ≠ g''.name →
        g'.name ++ "_error" ≠ g''.name ++ "_error" :=
      fun g' hg' g'' hg'' h =>
        hee g' (List.mem_cons_of_mem _ hg') g'' (List.mem_cons_of_mem _ hg'') h
    rcases List.mem_cons.mp hf with hgf | hfr
    · subst hgf
      have hts' : ∀ g' ∈ rest, g'.name ≠ "timestamp" := fun g' hg' => (hna' g' hg').2
      have hfr1 : ∀ g' ∈ rest, g'.name ≠ f.name ++ "_error" ∧
          g'.name ++ "_error" ≠ f.name ++ "_error" := by
        intro g' hg'
        constructor
        · exact fun hcon =>
            hce f (List.mem_cons_self _ _) g' (List.mem_cons_of_mem _ hg') hcon.symm
        · refine hee g' (List.mem_cons_of_mem _ hg') f (List.mem_cons_self _ _) ?_
          intro hcon
          exact hgn (hcon ▸ List.mem_map_of_mem ModbusField.name hg')
      cases hro : readOutcome oracle f with
      | ok v =>
        simp only [modbusCollect, hg_na.1, hg_na.2, hro, if_neg, if_false]
        rw [modbusCollect_get_frame oracle now rest _ (f.name ++ "_error") hts' hfr1,
          dictGet_set_ne _ _ _ _
            (hce f (List.mem_cons_self _ _) f (List.mem_cons_self _ _)).symm]
      | error e =>
        simp only [modbusCollect, hg_na.1, hg_na.2, hro, if_neg, if_false]
        rw [modbusCollect_get_frame oracle now rest _ (f.name ++ "_error") hts' hfr1,
          dictGet_set_self]
    · have hgf : g.name ≠ f.name := by
        intro hcon
        exact hgn (hcon ▸ List.mem_map_of_mem ModbusField.name hfr)
      by_cases hd : g.name = "device_name"
      · simp [modbusCollect, hd, ih _ hfr hnod' hna' hce' hee']
      · cases hro : readOutcome oracle g with
        | ok v =>
          simp only [modbusCollect, hd, hg_na.2, hro, if_neg, if_false]
          rw [ih _ hfr hnod' hna' hce' hee']
          cases readOutcome oracle f with
          | ok w =>
            exact dictGet_set_ne _ _ _ _
              (fun hcon => hce f (List.mem_cons_of_mem _ hfr) g (List.mem_cons_self _ _)
                hcon.symm)
          | error e' => rfl
        | error e =>
          simp only [modbusCollect, hd, hg_na.2, hro, if_neg, if_false]
          rw [ih _ hfr hnod' hna' hce' hee']
          cases readOutcome oracle f with
          | ok w =>
            exact dictGet_set_ne _ _ _ _
              (hee g (List.mem_cons_self _ _) f (List.mem_cons_of_mem _ hfr) hgf)
          | error e' => rfl

theorem save_schneider_ok (schemaCols : List ColumnDef) (dnm : String)
    (d : Dict) (now : String) (tbl : Table) (L : List String)
    (hL : (schemaCols.map ColumnDef.name).filter (fun n => n ≠ "device_name") = L)
    (hts : "timestamp" ∈ L)
    (hdts : ¬ dictGetD d "timestamp" = Value.null)
    (hddn : (dictGet d "device_name").isSome = true)
    (hall : (("device_name" :: L).all (fun c => c ∈ tbl.cols)) = true) :
    save_schneider_device_reading schemaCols dnm d now (some tbl)
      = .ok ⟨tbl.cols, tbl.rows ++
          [("device_name", dictGetD d "device_name")
            :: L.map (fun c => (c, dictGetD d c))]⟩ := by
  simp only [save_schneider_device_reading, hL, if_pos hts, if_neg hdts, if_pos hddn,
    insertRow, hall, if_pos, List.zip_cons_cons, zip_self_map]

/-- C6: in a Modbus read where some fields fail and others succeed, no
field's failure aborts the rest: every succeeded field keeps its decoded
value, every failed field is recorded under `<name>_error` and its own
column stays unset, the Record carries a valid timestamp and the
`device_name`, and the record is still persisted — the insert succeeds,
failed fields' columns read back as `NULL` in the stored row, succeeded
fields' values and the timestamp are stored. -/
theorem modbus_partial_failure (dn now : String) (fields : List ModbusField)
    (oracle : ModbusField → Except String (List Int))
    (schemaCols : List ColumnDef) (tbl : Table)
    (hnod : (fields.map ModbusField.name).Nodup)
    (hna : ∀ g ∈ fields, g.name ≠ "device_name" ∧ g.name ≠ "timestamp")
    (hce : ∀ g ∈ fields, ∀ g' ∈ fields, g.name ++ "_error" ≠ g'.name)
    (hee : ∀ g ∈ fields, ∀ g' ∈ fields, g.name ≠ g'.name →
      g.name ++ "_error" ≠ g'.name ++ "_error")
    (hek : ∀ g ∈ fields, g.name ++ "_error" ≠ "timestamp" ∧
      g.name ++ "_error" ≠ "device_name")
    (hsc : schemaCols.map ColumnDef.name = fields.map ModbusField.name ++ ["timestamp"])
    (htb1 : "device_name" ∈ tbl.cols) (htb2 : "timestamp" ∈ tbl.cols)
    (htb3 : ∀ g ∈ fields, g.name ∈ tbl.cols) :
    (∀ f ∈ fields, ∀ v, readOutcome oracle f = .ok v →
      dictGet (get_modbus_device_data dn true fields (.ok ()) oracle now) f.name
        = some v) ∧
    (∀ f ∈ fields, ∀ e, readOutcome oracle f = .error e →
      dictGet (get_modbus_device_data dn true fields (.ok ()) oracle now) f.name = none ∧
      dictGet (get_modbus_device_data dn true fields (.ok ()) oracle now)
        (f.name ++ "_error") = some (Value.str e)) ∧
    dictGet (get_modbus_device_data dn true fields (.ok ()) oracle now) "timestamp"
      = some (Value.str now) ∧
    dictGet (get_modbus_device_data dn true fields (.ok ()) oracle now) "device_name"
      = some (Value.str dn) ∧
    ∃ row,
      save_schneider_device_reading schemaCols dn
          (get_modbus_device_data dn true fields (.ok ()) oracle now) now (some tbl)
        = .ok ⟨tbl.cols, tbl.rows ++ [row]⟩ ∧
      dictGet row "device_name" = some (Value.str dn) ∧
      dictGet row "timestamp" = some (Value.str now) ∧
      (∀ f ∈ fields, ∀ v, readOutcome oracle f = .ok v →
        dictGet row f.name = some v) ∧
      (∀ f ∈ fields, ∀ e, readOutcome oracle f = .error e →
        dictGet row f.name = some Value.null) := by
  have hts : ∀ g ∈ fields, g.name ≠ "timestamp" := fun g hg => (hna g hg).2
  have hfr_ts : ∀ g ∈ fields, g.name ≠ "timestamp" ∧ g.name ++ "_error" ≠ "timestamp" :=
    fun g hg => ⟨(hna g hg).2, (hek g hg).1⟩
  have hfr_dn : ∀ g ∈ fields,
      g.name ≠ "device_name" ∧ g.name ++ "_error" ≠ "device_name" :=
    fun g hg => ⟨(hna g hg).1, (hek g hg).2⟩
  have hcoll_ts :
      dictGet (modbusCollect oracle now fields (dictSet [] "device_name" (Value.str dn)))
        "timestamp" = none := by
    rw [modbusCollect_get_frame oracle now fields _ "timestamp" hts hfr_ts]; rfl
  have hD : get_modbus_device_data dn true fields (.ok ()) oracle now
      = dictSet
          (modbusCollect oracle now fields (dictSet [] "device_name" (Value.str dn)))
          "timestamp" (Value.str now) := by
    simp [get_modbus_device_data, hcoll_ts]
  have hDts : dictGet (get_modbus_device_data dn true fields (.ok ()) oracle now)
      "timestamp" = some (Value.str now) := by
    rw [hD]; exact dictGet_set_self _ _ _
  have hDdn : dictGet (get_modbus_device_data dn true fields (.ok ()) oracle now)
      "device_name" = some (Value.str dn) := by
    rw [hD, dictGet_set_ne _ _ _ _ (by decide),
      modbusCollect_get_frame oracle now fields _ "device_name" hts hfr_dn]
    rfl
  have hDok : ∀ f ∈ fields, ∀ v, readOutcome oracle f = .ok v →
      dictGet (get_modbus_device_data dn true fields (.ok ()) oracle now) f.name
        = some v := by
    intro f hf v hro
    rw [hD, dictGet_set_ne _ _ _ _ (Ne.symm (hna f hf).2),
      modbusCollect_get_field oracle now fields _ f hf hnod hna hce, hro]
  have hDerr : ∀ f ∈ fields, ∀ e, readOutcome oracle f = .error e →
      dictGet (get_modbus_device_data dn true fields (.ok ()) oracle now) f.name
          = none ∧
      dictGet (get_modbus_device_data dn true fields (.ok ()) oracle now)
          (f.name ++ "_error") = some (Value.str e) := by
    intro f hf e hro
    constructor
    · rw [hD, dictGet_set_ne _ _ _ _ (Ne.symm (hna f hf).2),
        modbusCollect_get_field oracle now fields _ f hf hnod hna hce, hro]
      simp [dictSet, dictGet, Ne.symm (hna f hf).1]
    · rw [hD, dictGet_set_ne _ _ _ _ (Ne.symm (hek f hf).1),
        modbusCollect_get_error_key oracle now fields _ f hf hnod hna hce hee, hro]
  refine ⟨hDok, hDerr, hDts, hDdn, ?_⟩
  have hsf0 : ((schemaCols.map ColumnDef.name).filter (fun n => n ≠ "device_name"))
      = fields.map ModbusField.name ++ ["timestamp"] := by
    rw [hsc]
    apply List.filter_eq_self.mpr
    intro a ha
    rcases List.mem_append.mp ha with h | h
    · obtain ⟨g, hg, rfl⟩ := List.mem_map.mp h
      simp [(hna g hg).1]
    · simp at h
      subst h
      decide
  have htsmem : "timestamp" ∈ fields.map ModbusField.name ++ ["timestamp"] :=
    List.mem_append_right _ (by simp)
  have hall : ((("device_name" :: (fields.map ModbusField.name ++ ["timestamp"]))).all
      (fun c => c ∈ tbl.cols)) = true := by
    rw [List.all_eq_true]
    intro c hc
    rcases List.mem_cons.mp hc with rfl | hc2
    · simpa using htb1
    · rcases List.mem_append.mp hc2 with h | h
      · obtain ⟨g, hg, rfl⟩ := List.mem_map.mp h
        simpa using htb3 g hg
      · simp at h
        subst h
        simpa using htb2
  have hdts : ¬ dictGetD (get_modbus_device_data dn true fields (.ok ()) oracle now)
      "timestamp" = Value.null := by
    rw [dictGetD, hDts]
    exact fun h => Value.noConfusion h
  have hddn : (dictGet (get_modbus_device_data dn true fields (.ok ()) oracle now)
      "device_name").isSome = true := by
    rw [hDdn]; rfl
  have hsave := save_schneider_ok schemaCols dn
    (get_modbus_device_data dn true fields (.ok ()) oracle now) now tbl
    (fields.map ModbusField.name ++ ["timestamp"]) hsf0 htsmem hdts hddn hall
  refine ⟨_, hsave, ?_, ?_, ?_, ?_⟩
  · simp only [dictGet, if_pos rfl]
    rw [dictGetD, hDdn]
    rfl
  · rw [dictGet]
    rw [if_neg (by decide)]
    rw [dictGet_map_assoc, if_pos htsmem, dictGetD, hDts]
    rfl
  · intro f hf v hro
    rw [dictGet, if_neg (Ne.symm (hna f hf).1), dictGet_map_assoc,
      if_pos (List.mem_append_left _ (List.mem_map_of_mem ModbusField.name hf)),
      dictGetD, hDok f hf v hro]
    rfl
  · intro f hf e hro
    rw [dictGet, if_neg (Ne.symm (hna f hf).1), dictGet_map_assoc,
      if_pos (List.mem_append_left _ (List.mem_map_of_mem ModbusField.name hf)),
      dictGetD, (hDerr f hf e hro).1]
    rfl

/-- Witness for C6: five fields, the `current` and `energy` reads time out;
the three successes keep their values, the two failures leave error markers
and `NULL` columns, the timestamp is stamped, and the insert succeeds. -/
theorem modbus_partial_failure_witness :
    (exFields.map ModbusField.name).Nodup ∧
    readOutcome exOracle ⟨"voltage", 3027, 1, 1, ">I"⟩ = .ok (.int 100) ∧
    readOutcome exOracle ⟨"current", 3000, 1, 1, ">I"⟩ = .error "timed out" ∧
    dictGet (get_modbus_device_data "meterB" true exFields (.ok ()) exOracle "T1")
      "voltage" = some (.int 100) ∧
    dictGet (get_modbus_device_data "meterB" true exFields (.ok ()) exOracle "T1")
      "current_error" = some (.str "timed out") ∧
    dictGet (get_modbus_device_data "meterB" true exFields (.ok ()) exOracle "T1")
      "current" = none ∧
    dictGet (get_modbus_device_data "meterB" true exFields (.ok ()) exOracle "T1")
      "timestamp" = some (.str "T1") ∧
    ∃ row,
      save_schneider_device_reading exSchemaCols "meterB"
          (get_modbus_device_data "meterB" true exFields (.ok ()) exOracle "T1")
          "T1" (some exTable)
        = .ok ⟨exTable.cols, exTable.rows ++ [row]⟩ ∧
      dictGet row "current" = some Value.null ∧
      dictGet row "voltage" = some (.int 100) := by
  obtain ⟨hok, herr, hts, hdn, row, hsave, hrdn, hrts, hrok, hrerr⟩ :=
    modbus_partial_failure "meterB" "T1" exFields exOracle exSchemaCols exTable
      (by decide) (by decide) (by decide) (by decide) (by decide) (by decide)
      (by decide) (by decide) (by decide)
  refine ⟨by decide, rfl, rfl, ?_, ?_, ?_, hts, row, hsave, ?_, ?_⟩
  · exact hok ⟨"voltage", 3027, 1, 1, ">I"⟩ (by decide) (.int 100) rfl
  · exact (herr ⟨"current", 3000, 1, 1, ">I"⟩ (by decide) "timed out" rfl).2
  · exact (herr ⟨"current", 3000, 1, 1, ">I"⟩ (by decide) "timed out" rfl).1
  · exact hrerr ⟨"current", 3000, 1, 1, ">I"⟩ (by decide) "timed out" rfl
  · exact hrok ⟨"voltage", 3027, 1, 1, ">I"⟩ (by decide) (.int 100) rfl
